import Mathlib

/-!
Verification of the VolatileCell library (src/src/lib.rs).

The library is a single type `VolatileCell<T>` wrapping an `UnsafeCell<T>`:

  - `new(value)` (two cfg variants, `const fn` and plain `fn`, with the
    same body `VolatileCell { value: UnsafeCell::new(value) }`);
  - `get()` performing one `ptr::read_volatile` of the stored value;
  - `set(value)` performing one `ptr::write_volatile`;
  - `set_field(first_bit, bit_count, value)` (feature `bit-manipulation`),
    which checks `addr & 0xe007ffff != addr` and panics on failure, else
    computes the bit-manipulation-engine alias address and performs a single
    `ptr::write_volatile` to that alias address.

Two complementary embeddings are given, both translated from the source:

  1. a data-level model where the cell is its stored value and `get`/`set`
     are pure value operations; and
  2. a memory-level model where a cell is a fixed address into a memory
     `Nat -> alpha`, and each operation emits the volatile memory events it
     performs, so that counting and ordering of volatile accesses, the
     alias-address computation of `set_field`, and its panic branch can be
     stated.

Machine integers are modelled as `Nat` with explicit wraparound where the
source can overflow (`bit_count - 1` on `u8`, the `as u32` address cast).
-/

namespace VCellSpec

/-! ## Data-level model of VolatileCell -/

/-- Data-level model of `VolatileCell<T>`: the struct owns one value of
type `T` (the `UnsafeCell<T>` storage). -/
structure VolatileCell (α : Type) where
  value : α
  deriving DecidableEq, Repr

/-- Rust `pub fn new(value: T) -> Self` (the plain, run-time constructor,
compiled when the const-fn feature is off): body
`VolatileCell { value: UnsafeCell::new(value) }`. -/
def VolatileCell.new {α : Type} (value : α) : VolatileCell α :=
  { value := value }

/-- Rust `pub const fn new(value: T) -> Self` (the compile-time-evaluable
constructor, compiled when the const-fn feature is on): body
`VolatileCell { value: UnsafeCell::new(value) }`, identical to the
run-time variant. -/
def VolatileCell.newConst {α : Type} (value : α) : VolatileCell α :=
  { value := value }

/-- Rust `pub fn get(&self) -> T`: one volatile read of the stored value,
returning a copy.  At the data level the result is the stored value. -/
def VolatileCell.get {α : Type} (c : VolatileCell α) : α :=
  c.value

/-- Rust `pub fn set(&self, value: T)`: one volatile write of `value` into the
stored location.  At the data level the cell now stores `value`. -/
def VolatileCell.set {α : Type} (_c : VolatileCell α) (value : α) : VolatileCell α :=
  { value := value }

/-- A call on the cell through its basic interface: `get()` or `set(v)`. -/
inductive CellOp (α : Type) where
  | get : CellOp α
  | set (v : α) : CellOp α
  deriving DecidableEq, Repr

/-- Run a sequence of `get`/`set` calls on a cell at the data level,
collecting the value returned by each `get`. -/
def runCell {α : Type} (c : VolatileCell α) : List (CellOp α) → VolatileCell α × List α
  | [] => (c, [])
  | CellOp.get :: rest =>
      let r := runCell c rest
      (r.1, c.get :: r.2)
  | CellOp.set v :: rest => runCell (c.set v) rest

/-- The Rust functions `new`, `get` and `set` have no `panic!`, no early
return and no fallible call in their bodies; their embedding as fallible
calls (a panic would be an `Except.error`) therefore always returns `ok`.
This is the fallible-call view of `new`. -/
def newChecked {α : Type} (value : α) : Except String (VolatileCell α) :=
  Except.ok (VolatileCell.new value)

/-- Fallible-call view of `get`: the body is a single volatile read, with
no panic branch. -/
def getChecked {α : Type} (c : VolatileCell α) : Except String α :=
  Except.ok c.get

/-- Fallible-call view of `set`: the body is a single volatile write, with
no panic branch. -/
def setChecked {α : Type} (c : VolatileCell α) (value : α) : Except String (VolatileCell α) :=
  Except.ok (c.set value)

/-! ## Memory-level model -/

/-- A memory: contents of every 32-bit address. -/
def Mem (α : Type) : Type := ℕ → α

/-- One volatile memory transaction, as issued by `ptr::read_volatile` or
`ptr::write_volatile`. -/
inductive MemEvent (α : Type) where
  | read (addr : ℕ) : MemEvent α
  | write (addr : ℕ) (value : α) : MemEvent α
  deriving DecidableEq, Repr

/-- Rust `ptr::read_volatile`: returns the content at `addr` and issues one
read transaction. -/
def readVolatile {α : Type} (mem : Mem α) (addr : ℕ) : α × MemEvent α :=
  (mem addr, MemEvent.read addr)

/-- Rust `ptr::write_volatile`: stores `v` at `addr` and issues one write
transaction. -/
def writeVolatile {α : Type} (mem : Mem α) (addr : ℕ) (v : α) : Mem α × MemEvent α :=
  (fun a => if a = addr then v else mem a, MemEvent.write addr v)

/-- A cell placed in memory: `self.value.get()` is the fixed address of
the `UnsafeCell` storage for the whole lifetime of the cell. -/
structure CellAt where
  addr : ℕ
  deriving DecidableEq, Repr

/-- Memory-level `get`: `ptr::read_volatile(self.value.get())`. -/
def CellAt.get {α : Type} (c : CellAt) (mem : Mem α) : α × MemEvent α :=
  readVolatile mem c.addr

/-- Memory-level `set`: `ptr::write_volatile(self.value.get(), value)`. -/
def CellAt.set {α : Type} (c : CellAt) (value : α) (mem : Mem α) : Mem α × MemEvent α :=
  writeVolatile mem c.addr value

/-- Run one basic-interface call at the memory level, returning the new
memory and the single volatile transaction the call issues. -/
def stepOp {α : Type} (c : CellAt) (mem : Mem α) : CellOp α → Mem α × MemEvent α
  | CellOp.get => (mem, (CellAt.get c mem).2)
  | CellOp.set v => CellAt.set c v mem

/-- Run a sequence of calls at the memory level, collecting the volatile
transactions in the order they are issued. -/
def runOps {α : Type} (c : CellAt) (mem : Mem α) : List (CellOp α) → Mem α × List (MemEvent α)
  | [] => (mem, [])
  | op :: rest =>
      let s := stepOp c mem op
      let r := runOps c s.1 rest
      (r.1, s.2 :: r.2)

/-- The single volatile transaction a call issues, as a function of the
call alone (the cell address is fixed). -/
def opEvent {α : Type} (c : CellAt) : CellOp α → MemEvent α
  | CellOp.get => MemEvent.read c.addr
  | CellOp.set v => MemEvent.write c.addr v

/-! ## The bit-manipulation engine path (`set_field`) -/

/-- Wrapping `u8` subtraction of 1, the release-build semantics of
`bit_count - 1` on `u8` (an argument `x < 256` wraps to 255 at `x = 0`). -/
def u8WrapSub1 (x : ℕ) : ℕ :=
  (x + 255) % 256

/-- Checked `u8` subtraction of 1, the debug-build semantics of
`bit_count - 1` on `u8`: `none` is the overflow panic at `x = 0`. -/
def u8CheckedSub1 (x : ℕ) : Option ℕ :=
  if x = 0 then none else some (x - 1)

/-- The panic message of `set_field`.  In the source it is the sole
argument of `panic!`; a single-literal `panic!` (2015/2018 edition) does
not format, so the message is the literal itself, placeholder included. -/
def bmePanicMessage : String :=
  "Tried to use BME on address 0x\x7b:x?\x7d, which is not in either the peripheral or upper-SRAM address range"

/-- The alias-address computation of `set_field`:
`addr | 0x10000000 | (((first_bit & 0x1f) as u32) << 23) | ((((bit_count-1) & 0xf) as u32) << 19)`,
with the `u8` subtraction taken wrapping. -/
def bfiAddr (addr first_bit bit_count : ℕ) : ℕ :=
  addr ||| 0x10000000 |||
    ((first_bit &&& 0x1f) <<< 23) |||
    ((u8WrapSub1 bit_count &&& 0xf) <<< 19)

/-- Rust `pub fn set_field(&self, first_bit: u8, bit_count: u8, value: T)`
(feature `bit-manipulation`): casts the storage pointer to `u32`, panics
unless `addr & 0xe007ffff == addr`, else computes the alias address and
performs one volatile write of `value` to it.  The result on success is
the new memory together with the volatile transactions issued. -/
def CellAt.set_field {α : Type} (c : CellAt) (first_bit bit_count : ℕ) (value : α)
    (mem : Mem α) : Except String (Mem α × List (MemEvent α)) :=
  let addr := c.addr % 2 ^ 32
  if addr &&& 0xe007ffff ≠ addr then
    Except.error bmePanicMessage
  else
    let w := writeVolatile mem (bfiAddr addr first_bit bit_count) value
    Except.ok (w.1, [w.2])

/-- Running `set_field` as a state transformer: a panic aborts before any
write, leaving memory as it was and issuing no transaction. -/
def runSetField {α : Type} (c : CellAt) (first_bit bit_count : ℕ) (value : α)
    (mem : Mem α) : Mem α × List (MemEvent α) × Option String :=
  match CellAt.set_field c first_bit bit_count value mem with
  | Except.error e => (mem, [], some e)
  | Except.ok r => (r.1, r.2, none)

/-! ## Helper lemmas -/

/-- Masking with `0x1f` is reduction modulo 32. -/
theorem and_0x1f_eq_mod (n : ℕ) : n &&& 0x1f = n % 32 := by
  have h := Nat.and_pow_two_sub_one_eq_mod n 5
  norm_num at h
  exact h

/-- Masking with `0xf` is reduction modulo 16. -/
theorem and_0xf_eq_mod (n : ℕ) : n &&& 0xf = n % 16 := by
  have h := Nat.and_pow_two_sub_one_eq_mod n 4
  norm_num at h
  exact h

/-! ## Claims -/

/-- C1: round-trip of set then get.  For every bitwise-copyable value `v`,
after `cell.set(v)` a subsequent `cell.get()` returns `v` (shown both at
the data level and through the memory model); and for a cell over a
32-bit value initialized to 0, `set(0xDEADBEEF); get()` yields
`0xDEADBEEF`, and then `set(0); get()` yields 0. -/
theorem c1_set_then_get_roundtrip :
    (∀ (α : Type) (c : VolatileCell α) (v : α), (c.set v).get = v) ∧
    (∀ (α : Type) (c : CellAt) (mem : Mem α) (v : α),
      (CellAt.get c (CellAt.set c v mem).1).1 = v) ∧
    (((VolatileCell.new (0 : ℕ)).set 0xDEADBEEF).get = 0xDEADBEEF ∧
      ((((VolatileCell.new (0 : ℕ)).set 0xDEADBEEF).set 0).get = 0)) := by
  refine ⟨fun α c v => rfl, fun α c mem v => ?_, rfl, rfl⟩
  simp [CellAt.get, CellAt.set, readVolatile, writeVolatile]

/-- C2: alias-address encoding of set_field.  For every in-window real
address `A` and every `u8` pair `first_bit`, `bit_count` with
`bit_count ≥ 1`, the alias address equals `A` with the marker bit
`0x10000000` set, OR `(first_bit & 0x1f) << 23`, OR
`((bit_count - 1) & 0xf) << 19`; in particular for `first_bit = 5` and
`bit_count = 3` it equals `A ||| 0x10000000 ||| (5 <<< 23) ||| (2 <<< 19)`. -/
theorem c2_alias_address_encoding (A first_bit bit_count : ℕ)
    (_hA : A &&& 0xe007ffff = A) (h1 : 1 ≤ bit_count) (h2 : bit_count < 256) :
    bfiAddr A first_bit bit_count =
      A ||| 0x10000000 ||| ((first_bit &&& 0x1f) <<< 23) |||
        (((bit_count - 1) &&& 0xf) <<< 19) ∧
    bfiAddr A 5 3 = A ||| 0x10000000 ||| (5 <<< 23) ||| (2 <<< 19) := by
  constructor
  · unfold bfiAddr u8WrapSub1
    have h : (bit_count + 255) % 256 = bit_count - 1 := by omega
    rw [h]
  · unfold bfiAddr u8WrapSub1
    norm_num
    rw [show (5 : ℕ) &&& 31 = 5 from rfl, show (2 : ℕ) &&& 15 = 2 from rfl]

/-- Witness for C2 at `A = 0x40000000`, `first_bit = 5`, `bit_count = 3`. -/
theorem c2_alias_address_encoding_witness :
    (0x40000000 &&& 0xe007ffff = 0x40000000) ∧ 1 ≤ 3 ∧ 3 < 256 ∧
    (bfiAddr 0x40000000 5 3 =
      0x40000000 ||| 0x10000000 ||| ((5 &&& 0x1f) <<< 23) ||| (((3 - 1) &&& 0xf) <<< 19) ∧
     bfiAddr 0x40000000 5 3 = 0x40000000 ||| 0x10000000 ||| (5 <<< 23) ||| (2 <<< 19)) :=
  ⟨by decide, by decide, by decide,
    c2_alias_address_encoding 0x40000000 5 3 (by decide) (by decide) (by decide)⟩

/-- C6: totality of the basic interface.  For every cell and every value,
the fallible-call views of `new`, `get` and `set` return `ok`: none of
them has a failure branch. -/
theorem c6_basic_interface_total :
    ∀ (α : Type) (c : VolatileCell α) (v : α),
      (newChecked v).isOk = true ∧ (getChecked c).isOk = true ∧
        (setChecked c v).isOk = true :=
  fun _ _ _ => ⟨rfl, rfl, rfl⟩

/-- C7: one memory transaction per call, in call order.  Running any
sequence of interleaved `set`/`get` calls on one cell issues exactly the
per-call volatile transactions, in program order: the trace is the map of
`opEvent` over the calls (one read per `get`, one write per `set`, none
elided, none merged), and in particular has one entry per call. -/
theorem c7_one_transaction_per_call_in_order :
    ∀ (α : Type) (c : CellAt) (mem : Mem α) (ops : List (CellOp α)),
      (runOps c mem ops).2 = ops.map (opEvent c) ∧
      (runOps c mem ops).2.length = ops.length := by
  intro α c mem ops
  induction ops generalizing mem with
  | nil => exact ⟨rfl, rfl⟩
  | cons op rest ih =>
      refine ⟨?_, ?_⟩ <;>
        cases op <;>
        simp [runOps, stepOp, CellAt.get, CellAt.set, readVolatile, writeVolatile,
          opEvent, (ih _).1]

/-- C8: constructor-variant equivalence.  The const-fn constructor and the
run-time constructor build equal cells, and the cells behave identically
under every subsequent sequence of `get`/`set` calls. -/
theorem c8_constructor_variant_equivalence :
    ∀ (α : Type) (v : α) (ops : List (CellOp α)),
      VolatileCell.newConst v = VolatileCell.new v ∧
      runCell (VolatileCell.newConst v) ops = runCell (VolatileCell.new v) ops :=
  fun _ _ _ => ⟨rfl, rfl⟩

/-- C3: set_field proceeds exactly on addresses passing the window test.
The operation aborts if and only if masking the 32-bit real address with
the fixed pattern `0xe007ffff` does not reproduce the address, and
succeeds if and only if it does. -/
theorem c3_set_field_abort_iff_window (α : Type) (c : CellAt) (fb bc : ℕ) (v : α)
    (mem : Mem α) (h : c.addr < 2 ^ 32) :
    ((∃ e, CellAt.set_field c fb bc v mem = Except.error e) ↔
      c.addr &&& 0xe007ffff ≠ c.addr) ∧
    ((∃ r, CellAt.set_field c fb bc v mem = Except.ok r) ↔
      c.addr &&& 0xe007ffff = c.addr) := by
  unfold CellAt.set_field
  rw [Nat.mod_eq_of_lt h]
  by_cases hc : c.addr &&& 0xe007ffff = c.addr
  · simp [hc]
  · simp [hc]

/-- Witness for C3 at the out-of-window address `0x80000`. -/
theorem c3_set_field_abort_iff_window_witness :
    (0x80000 < 2 ^ 32) ∧
    (((∃ e, CellAt.set_field (CellAt.mk 0x80000) 5 3 (1 : ℕ) (fun _ => 0) =
          Except.error e) ↔
        (CellAt.mk 0x80000).addr &&& 0xe007ffff ≠ (CellAt.mk 0x80000).addr) ∧
      ((∃ r, CellAt.set_field (CellAt.mk 0x80000) 5 3 (1 : ℕ) (fun _ => 0) =
          Except.ok r) ↔
        (CellAt.mk 0x80000).addr &&& 0xe007ffff = (CellAt.mk 0x80000).addr)) :=
  ⟨by decide,
    c3_set_field_abort_iff_window ℕ (CellAt.mk 0x80000) 5 3 1 (fun _ => 0) (by decide)⟩

set_option maxRecDepth 100000 in
/-- C4: the claim asks that the abort message name the offending address
in hexadecimal.  In the source the `panic!` receives one literal and no
arguments, so the message is the constant literal with an uninterpolated
placeholder: every abort yields the same `bmePanicMessage`, and at the
failing address `0x80000` that message does not contain the hexadecimal
digits of the address. -/
theorem c4_panic_message_lacks_address :
    CellAt.set_field (CellAt.mk 0x80000) 5 3 (1 : ℕ) (fun _ => 0) =
      Except.error bmePanicMessage ∧
    (∀ (α : Type) (c : CellAt) (fb bc : ℕ) (v : α) (mem : Mem α) (e : String),
      CellAt.set_field c fb bc v mem = Except.error e → e = bmePanicMessage) ∧
    ¬ (Nat.toDigits 16 0x80000 <:+: bmePanicMessage.toList) := by
  refine ⟨rfl, ?_, by decide⟩
  intro α c fb bc v mem e he
  simp only [CellAt.set_field] at he
  split at he
  · injection he with h2
    exact h2.symm
  · exact Except.noConfusion he

/-- C5: atomicity of the set_field failure path.  For every address that
fails the window test, set_field returns the panic without issuing any
volatile write: run as a state transformer it leaves the memory exactly
as it was and its transaction trace is empty. -/
theorem c5_failure_path_no_write (α : Type) (c : CellAt) (fb bc : ℕ) (v : α)
    (mem : Mem α) (h : (c.addr % 2 ^ 32) &&& 0xe007ffff ≠ c.addr % 2 ^ 32) :
    CellAt.set_field c fb bc v mem = Except.error bmePanicMessage ∧
    runSetField c fb bc v mem = (mem, [], some bmePanicMessage) := by
  have h1 : CellAt.set_field c fb bc v mem = Except.error bmePanicMessage := by
    simp only [CellAt.set_field]
    rw [if_pos h]
  exact ⟨h1, by unfold runSetField; rw [h1]⟩

/-- Witness for C5 at the out-of-window address `0x80000`. -/
theorem c5_failure_path_no_write_witness :
    ((0x80000 % 2 ^ 32) &&& 0xe007ffff ≠ 0x80000 % 2 ^ 32) ∧
    (CellAt.set_field (CellAt.mk 0x80000) 5 3 (1 : ℕ) (fun _ => 0) =
        Except.error bmePanicMessage ∧
      runSetField (CellAt.mk 0x80000) 5 3 (1 : ℕ) (fun _ => 0) =
        ((fun _ => 0), [], some bmePanicMessage)) :=
  ⟨by decide,
    c5_failure_path_no_write ℕ (CellAt.mk 0x80000) 5 3 1 (fun _ => 0) (by decide)⟩

/-- C9: `bit_count = 0` underflows the `u8` subtraction `bit_count - 1`.
Checked (debug) arithmetic has no result there; under wrapping (release)
arithmetic the field-width bits encode `0xff & 0xf = 15`, so set_field
with `bit_count = 0` computes exactly the alias address of a 16-bit field
insert: it coincides with set_field at `bit_count = 16`. -/
theorem c9_bit_count_zero_underflow :
    u8CheckedSub1 0 = none ∧
    u8WrapSub1 0 &&& 0xf = 15 ∧
    (∀ (addr fb : ℕ), bfiAddr addr fb 0 = bfiAddr addr fb 16) ∧
    (∀ (α : Type) (c : CellAt) (fb : ℕ) (v : α) (mem : Mem α),
      CellAt.set_field c fb 0 v mem = CellAt.set_field c fb 16 v mem) := by
  have hb : ∀ (addr fb : ℕ), bfiAddr addr fb 0 = bfiAddr addr fb 16 := by
    intro addr fb
    unfold bfiAddr u8WrapSub1
    norm_num
    rw [show (255 : ℕ) &&& 15 = 15 from rfl]
  refine ⟨rfl, rfl, hb, ?_⟩
  intro α c fb v mem
  simp only [CellAt.set_field]
  rw [hb]

/-- C10: set_field silently truncates out-of-range parameters.  Only
`first_bit mod 32` enters the alias address, and for `bit_count ≥ 1` only
the low four bits of `bit_count - 1` enter it; in particular set_field
with `first_bit = 37` writes the same alias address as with
`first_bit = 5`. -/
theorem c10_parameter_truncation (α : Type) (c : CellAt) (fb bc : ℕ) (v : α)
    (mem : Mem α) (h1 : 1 ≤ bc) (h2 : bc < 256) :
    bfiAddr c.addr fb bc = bfiAddr c.addr (fb % 32) bc ∧
    bfiAddr c.addr fb bc = bfiAddr c.addr fb ((bc - 1) % 16 + 1) ∧
    CellAt.set_field c 37 bc v mem = CellAt.set_field c 5 bc v mem := by
  refine ⟨?_, ?_, ?_⟩
  · unfold bfiAddr
    rw [and_0x1f_eq_mod, and_0x1f_eq_mod]
    have h : fb % 32 % 32 = fb % 32 := by omega
    rw [h]
  · unfold bfiAddr u8WrapSub1
    rw [and_0xf_eq_mod, and_0xf_eq_mod]
    have h : (bc + 255) % 256 % 16 = ((bc - 1) % 16 + 1 + 255) % 256 % 16 := by omega
    rw [h]
  · have h37 : ∀ (a b : ℕ), bfiAddr a 37 b = bfiAddr a 5 b := by
      intro a b
      unfold bfiAddr
      rw [show ((37 : ℕ) &&& 0x1f) = (5 &&& 0x1f) from rfl]
    simp only [CellAt.set_field]
    rw [h37]

/-- Witness for C10 at `first_bit = 37`, `bit_count = 3`, address
`0x40000000`. -/
theorem c10_parameter_truncation_witness :
    1 ≤ 3 ∧ 3 < 256 ∧
    (bfiAddr (CellAt.mk 0x40000000).addr 37 3 =
        bfiAddr (CellAt.mk 0x40000000).addr (37 % 32) 3 ∧
      bfiAddr (CellAt.mk 0x40000000).addr 37 3 =
        bfiAddr (CellAt.mk 0x40000000).addr 37 ((3 - 1) % 16 + 1) ∧
      CellAt.set_field (CellAt.mk 0x40000000) 37 3 (1 : ℕ) (fun _ => 0) =
        CellAt.set_field (CellAt.mk 0x40000000) 5 3 (1 : ℕ) (fun _ => 0)) :=
  ⟨by decide, by decide,
    c10_parameter_truncation ℕ (CellAt.mk 0x40000000) 37 3 1 (fun _ => 0)
      (by decide) (by decide)⟩

end VCellSpec
